import Mathlib

/-!
Verification development for the video-processing pipeline
(`video_processing_refactored.py`).

The embedding models the pure data flow of the script:

* frames and the CLIP scoring of a frame are abstracted: for the
  classifier, a frame is fully described by whether it is a decoded
  image (`isNdarray`, the `isinstance(first_frame, np.ndarray)` check)
  and by the outcome of the per-frame scoring `try` block
  (`score = some probs` when lines 91-98 succeed and produce the
  softmax probability list, `score = none` when any exception is
  raised and the frame is skipped);
* scores are taken in an arbitrary linear ordered field (instantiated
  at `ℚ` for concrete evaluation and at `ℝ` when the softmax with its
  real exponential is in play), idealizing Python float arithmetic;
* Python runtime errors (IndexError, ZeroDivisionError, ValueError)
  are modelled by `Except String`;
* the scene dictionary is modelled as an association list in insertion
  order, matching Python dict iteration order.
-/

deriving instance DecidableEq for Except

/-- A video time-code, as used by the script: `get_frames()`,
`get_seconds()` and `str(...)` are the only operations applied to the
`FrameTimecode` objects produced by scene detection. -/
structure Timecode where
  getFrames : ℕ
  getSeconds : ℚ
  toStr : String
deriving DecidableEq

/-- A frame as seen by the classifier: `isNdarray` records whether the
value is a decoded image (`isinstance(..., np.ndarray)`), and `score`
records the outcome of the per-frame CLIP scoring `try` block (lines
90-98): `some probs` is the softmax probability list of a successfully
scored frame, `none` means an exception was raised and caught. -/
structure Frame (α : Type) where
  isNdarray : Bool
  score : Option (List α)
deriving DecidableEq

/-- The per-scene dictionary built by `extract_frames` (line 65):
`{start_time, end_time, frames, first_frame}`. -/
structure SceneBundle (F : Type) where
  start_time : Timecode
  end_time : Timecode
  frames : List F
  first_frame : Option F
deriving DecidableEq

/-- The scene classification record built at lines 121-129 of
`classify_and_categorize_scenes`. -/
structure SceneRecord (α : Type) where
  category : String
  confidence : α
  start_time : String
  end_time : String
  duration : α
  first_frame : Frame α
  best_description : String
deriving DecidableEq

/-- The video decoder (`cv2.VideoCapture`) abstracted as a map from
frame position to decode result: `decode n = some f` models a read at
position `n` returning `ret = True` with frame `f`, and `none` models
a failed read (`ret = False`); each read attempt consumes one frame
position. -/
structure VideoCapture (F : Type) where
  decode : ℕ → Option F

/-- The frame-reading `while` loop of `extract_frames` (lines 59-64),
counting down the `remaining = end_frame - position` frames still to be
read: each iteration reads at `pos`, appends the frame to `frames` on
success (`ret = True`), records the first successful frame, and always
advances the position. -/
def readFramesAux {F : Type} (cap : VideoCapture F) :
    ℕ → ℕ → List F → Option F → List F × Option F
  | _, 0, frames, first_frame => (frames, first_frame)
  | pos, remaining + 1, frames, first_frame =>
    match cap.decode pos with
    | some frame =>
      readFramesAux cap (pos + 1) remaining (frames ++ [frame])
        (if first_frame.isNone then some frame else first_frame)
    | none => readFramesAux cap (pos + 1) remaining frames first_frame

/-- `extract_frames` (lines 52-68): for each scene interval, read every
frame from the interval's start frame up to (excluding) its end frame,
and bundle the collected frames with the first successfully decoded
frame, keyed by the scene's index. -/
def extract_frames {F : Type} (cap : VideoCapture F)
    (scene_list : List (Timecode × Timecode)) : List (ℕ × SceneBundle F) :=
  scene_list.enum.map (fun p =>
    (p.1,
     { start_time := p.2.1
       end_time := p.2.2
       frames := (readFramesAux cap p.2.1.getFrames
         (p.2.2.getFrames - p.2.1.getFrames) [] none).1
       first_frame := (readFramesAux cap p.2.1.getFrames
         (p.2.2.getFrames - p.2.1.getFrames) [] none).2 }))

/-- The hard-coded action index list of line 74. -/
def action_indices : List ℕ := [0, 1, 2, 3, 4, 5, 6, 7, 8, 9]

/-- `context_indices` (line 75): `set(range(M)) - set(action_indices)`,
listed in ascending order (CPython set iteration order for these small
integers; only its length and the sum over it are ever used). -/
def context_indices (M : ℕ) : List ℕ :=
  (List.range M).filter (fun i => ! action_indices.contains i)

/-- The frame-scoring loop of lines 86-103, accumulating into
`(scene_scores, valid_frames)`: a frame whose scoring `try` block
succeeds has its probability list added pointwise into the running
score list (`[sum(x) for x in zip(scene_scores, probs.tolist())]`,
line 99, truncating to the shorter list like Python `zip`) and bumps
the counter; a frame whose block raised is skipped. -/
def frameAccumAux {α : Type} [LinearOrderedField α] (acc : List α × ℕ) :
    List (Frame α) → List α × ℕ
  | [] => acc
  | f :: fs =>
    match f.score with
    | some probs =>
      frameAccumAux (List.zipWith (fun a b => a + b) acc.1 probs, acc.2 + 1) fs
    | none => frameAccumAux acc fs

/-- Running scores and valid-frame count for a scene, starting from
`scene_scores = [0] * len(description_texts)` and `valid_frames = 0`
(lines 86-87). -/
def frameAccum {α : Type} [LinearOrderedField α] (M : ℕ)
    (frames : List (Frame α)) : List α × ℕ :=
  frameAccumAux (List.replicate M 0, 0) frames

/-- The mean per-phrase score list of line 106:
`[score / valid_frames for score in scene_scores]`. -/
def sceneMeanScores {α : Type} [LinearOrderedField α] (M : ℕ)
    (frames : List (Frame α)) : List α :=
  (frameAccum M frames).1.map
    (fun score => score / ((frameAccum M frames).2 : α))

/-- `sum(l[i] for i in is)`, signalling Python's IndexError as `none`
when some index is out of range. -/
def sum_at? {α : Type} [LinearOrderedField α] (l : List α) :
    List ℕ → Option α
  | [] => some 0
  | i :: is =>
    match l[i]? with
    | some x =>
      match sum_at? l is with
      | some s => some (x + s)
      | none => none
    | none => none

/-- Line 107: `sum(scene_scores[i] for i in action_indices) /
len(action_indices)`; `none` models the IndexError raised when an
action index is out of range. -/
def actionConfidence? {α : Type} [LinearOrderedField α]
    (scene_scores : List α) : Option α :=
  (sum_at? scene_scores action_indices).map
    (fun s => s / (action_indices.length : α))

/-- Python `max(l)` for a list: `none` models the ValueError on an
empty list. -/
def pyMax? {α : Type} [LinearOrder α] : List α → Option α
  | [] => none
  | a :: as => some (as.foldl max a)

/-- Python `l.index(x)`: the first position whose element equals `x`
(the script only calls it with `x = max(l)`, which is present). -/
def list_index {α : Type} [DecidableEq α] : List α → α → ℕ
  | [], _ => 0
  | a :: as, x => if a = x then 0 else list_index as x + 1

/-- The per-scene body of the loop of `classify_and_categorize_scenes`
(lines 77-129): skip the scene (`ok none`) when the first frame is not
a decoded image or when no frame was successfully scored; otherwise
compute the mean scores, the two partition confidences (line 108
raising ZeroDivisionError when `context_indices` is empty, i.e. when
the vocabulary has at most 10 phrases), the best description, and the
category comparison of lines 113-118. -/
def classifyScene {α : Type} [LinearOrderedField α] [DecidableEq α]
    (description_texts : List String) (scene_data : SceneBundle (Frame α)) :
    Except String (Option (SceneRecord α)) :=
  match scene_data.first_frame with
  | none => Except.ok none
  | some ff =>
    if ff.isNdarray then
      if 0 < (frameAccum description_texts.length scene_data.frames).2 then
        match actionConfidence?
            (sceneMeanScores description_texts.length scene_data.frames) with
        | none => Except.error "IndexError"
        | some action_confidence =>
          match sum_at?
              (sceneMeanScores description_texts.length scene_data.frames)
              (context_indices description_texts.length) with
          | none => Except.error "IndexError"
          | some csum =>
            if (context_indices description_texts.length).length = 0 then
              Except.error "ZeroDivisionError"
            else
              match pyMax?
                  (sceneMeanScores description_texts.length
                    scene_data.frames) with
              | none => Except.error "ValueError"
              | some mx =>
                match description_texts[list_index
                    (sceneMeanScores description_texts.length scene_data.frames)
                    mx]? with
                | none => Except.error "IndexError"
                | some best_description =>
                  if action_confidence >
                      csum /
                        ((context_indices description_texts.length).length : α)
                    then
                    Except.ok (some
                      { category := "Action Scene"
                        confidence := action_confidence
                        start_time := scene_data.start_time.toStr
                        end_time := scene_data.end_time.toStr
                        duration := scene_data.end_time.getSeconds -
                          scene_data.start_time.getSeconds
                        first_frame := ff
                        best_description := best_description })
                  else
                    Except.ok (some
                      { category := "Context Scene"
                        confidence := csum /
                          ((context_indices description_texts.length).length : α)
                        start_time := scene_data.start_time.toStr
                        end_time := scene_data.end_time.toStr
                        duration := scene_data.end_time.getSeconds -
                          scene_data.start_time.getSeconds
                        first_frame := ff
                        best_description := best_description })
      else Except.ok none
    else Except.ok none

/-- Split a character list at every occurrence of `sep`, like Python
`str.split(sep)`: splitting the empty string yields one empty part. -/
def splitOnChar (sep : Char) : List Char → List (List Char)
  | [] => [[]]
  | c :: cs =>
    if c = sep then [] :: splitOnChar sep cs
    else
      match splitOnChar sep cs with
      | [] => [[c]]
      | h :: t => (c :: h) :: t

/-- Numeric value of a digit string, most significant first. -/
def digitsToNat (l : List Char) : ℕ :=
  l.foldl (fun n c => 10 * n + (c.toNat - 48)) 0

/-- Python `float(s)`, modelled on the unsigned decimal literals the
timestamp strings consist of: an optional single decimal point with
digits around it; anything else (in particular an empty string or a
stray character) raises, modelled as `none`. -/
def pyFloat? (l : List Char) : Option ℚ :=
  match splitOnChar '.' l with
  | [ip] =>
    if ip ≠ [] ∧ ip.all Char.isDigit then some (digitsToNat ip) else none
  | [ip, fp] =>
    if (ip ≠ [] ∨ fp ≠ []) ∧ ip.all Char.isDigit ∧ fp.all Char.isDigit then
      some ((digitsToNat ip : ℚ) + (digitsToNat fp : ℚ) / (10 : ℚ) ^ fp.length)
    else none
  | _ => none

/-- Python `int(x)` on a float value: truncation toward zero, i.e.
T-division of the numerator by the denominator. -/
def pyInt (q : ℚ) : ℤ :=
  q.num.tdiv (q.den : ℤ)

/-- `convert_timestamp_to_seconds` (lines 191-194):
`h, m, s = map(float, timestamp.split(':'))` followed by
`int(h) * 3600 + int(m) * 60 + s`; `none` models the ValueError raised
when the string does not have exactly three float parts. -/
def convert_timestamp_to_seconds (timestamp : String) : Option ℚ :=
  match (splitOnChar ':' timestamp.toList).mapM pyFloat? with
  | some [h, m, s] => some ((pyInt h : ℚ) * 3600 + (pyInt m : ℚ) * 60 + s)
  | _ => none

/-- The softmax normalization applied to the similarity logits at line
98 (`logits.softmax(dim=0)`): `exp xᵢ / Σⱼ exp xⱼ`. -/
noncomputable def softmax (logits : List ℝ) : List ℝ :=
  logits.map (fun x => Real.exp x / (logits.map Real.exp).sum)

/-- `classify_and_categorize_scenes` (lines 70-131): fold the per-scene
body over the scene dictionary in insertion order; an uncaught exception
in any scene aborts the whole call, a skipped scene contributes nothing,
a classified scene contributes its record under its scene id. -/
def classify_and_categorize_scenes {α : Type} [LinearOrderedField α]
    [DecidableEq α] (scene_frames : List (ℕ × SceneBundle (Frame α)))
    (description_phrases : List String) :
    Except String (List (ℕ × SceneRecord α)) :=
  match scene_frames with
  | [] => Except.ok []
  | (scene_id, scene_data) :: rest =>
    match classifyScene description_phrases scene_data with
    | Except.error e => Except.error e
    | Except.ok none => classify_and_categorize_scenes rest description_phrases
    | Except.ok (some r) =>
      match classify_and_categorize_scenes rest description_phrases with
      | Except.error e => Except.error e
      | Except.ok out => Except.ok ((scene_id, r) :: out)

/-- Sample decoder used for concrete evaluation: every position decodes
to its own index, except position 1 which fails to decode. -/
def capSample : VideoCapture ℕ := ⟨fun n => if n = 1 then none else some n⟩

/-- Sample interval start time-code (frame 0, second 0). -/
def tcA : Timecode := ⟨0, 0, "00:00:00.000"⟩

/-- Sample interval end time-code (frame 3, second 1). -/
def tcB : Timecode := ⟨3, 1, "00:00:01.000"⟩

/-- Sample vocabulary of 11 phrases. -/
def phrases11 : List String := List.replicate 11 "p"

/-- Sample vocabulary of exactly 10 phrases (all of them action
phrases, leaving the context subset empty). -/
def phrases10 : List String := List.replicate 10 "p"

/-- Sample frame whose scoring block succeeded with an 11-entry
probability list. -/
def frameGood11 : Frame ℚ := ⟨true, some [1, 0, 0, 0, 0, 0, 0, 0, 0, 0, 0]⟩

/-- Sample frame whose scoring block succeeded with a 10-entry
probability list. -/
def frameGood10 : Frame ℚ := ⟨true, some [1, 0, 0, 0, 0, 0, 0, 0, 0, 0]⟩

/-- Sample frame whose scoring block raised an exception. -/
def frameBad : Frame ℚ := ⟨true, none⟩

/-- Sample scene: one successfully scored frame, one frame whose
per-frame processing raised, a valid first frame. -/
def sceneGood11 : SceneBundle (Frame ℚ) :=
  ⟨tcA, tcB, [frameGood11, frameBad], some frameGood11⟩

/-- Sample scene for the 10-phrase vocabulary. -/
def sceneGood10 : SceneBundle (Frame ℚ) :=
  ⟨tcA, tcB, [frameGood10], some frameGood10⟩

/-- The record the classifier emits for `sceneGood11` under
`phrases11`. -/
def recGood11 : SceneRecord ℚ :=
  ⟨"Action Scene", 1 / 10, "00:00:00.000", "00:00:01.000", 1, frameGood11, "p"⟩

theorem readFramesAux_fst {F : Type} (cap : VideoCapture F) :
    ∀ (remaining pos : ℕ) (frames : List F) (first_frame : Option F),
      (readFramesAux cap pos remaining frames first_frame).1 =
        frames ++ (List.range' pos remaining).filterMap cap.decode := by
  intro remaining
  induction remaining with
  | zero => intro pos frames first_frame; simp [readFramesAux]
  | succ n ih =>
    intro pos frames first_frame
    rw [List.range'_succ]
    simp only [readFramesAux]
    cases hd : cap.decode pos with
    | some f => simp [hd, ih, List.filterMap_cons]
    | none => simp [hd, ih, List.filterMap_cons]

theorem readFramesAux_snd {F : Type} (cap : VideoCapture F) :
    ∀ (remaining pos : ℕ) (frames : List F) (first_frame : Option F),
      first_frame = frames.head? →
      (readFramesAux cap pos remaining frames first_frame).2 =
        (readFramesAux cap pos remaining frames first_frame).1.head? := by
  intro remaining
  induction remaining with
  | zero => intro pos frames first_frame h; simpa [readFramesAux] using h
  | succ n ih =>
    intro pos frames first_frame h
    simp only [readFramesAux]
    cases hd : cap.decode pos with
    | some f =>
      apply ih
      cases frames with
      | nil => simp [h]
      | cons a t => simp [h]
    | none => exact ih (pos + 1) frames first_frame h

/-- C8: for every scene interval, the frame-reading loop of
`extract_frames` terminates after covering exactly the positions from
the interval's start frame up to its end frame (the bundle's frames are
the successful decodes over that finite range, in order), and an
individual decode failure is skipped without aborting extraction, so
the collected frame count may be smaller than the interval's nominal
span. -/
theorem extract_frames_reads_interval {F : Type} (cap : VideoCapture F)
    (scene_list : List (Timecode × Timecode)) (i : ℕ) (st en : Timecode)
    (h : scene_list[i]? = some (st, en)) :
    ∃ b : SceneBundle F,
      (extract_frames cap scene_list)[i]? = some (i, b) ∧
      b.frames =
        (List.range' st.getFrames (en.getFrames - st.getFrames)).filterMap
          cap.decode ∧
      b.frames.length ≤ en.getFrames - st.getFrames := by
  refine ⟨⟨st, en,
    (readFramesAux cap st.getFrames (en.getFrames - st.getFrames) [] none).1,
    (readFramesAux cap st.getFrames (en.getFrames - st.getFrames) [] none).2⟩,
    ?_, ?_, ?_⟩
  · unfold extract_frames
    rw [List.getElem?_map, List.getElem?_enum, h]
    rfl
  · simp only [readFramesAux_fst, List.nil_append]
  · simp only [readFramesAux_fst, List.nil_append]
    calc ((List.range' st.getFrames (en.getFrames - st.getFrames)).filterMap
          cap.decode).length
        ≤ (List.range' st.getFrames (en.getFrames - st.getFrames)).length :=
          List.length_filterMap_le _ _
      _ = en.getFrames - st.getFrames := List.length_range' _ _ _

/-- C8 witness: the sample decoder over the interval of frames 0-2,
with the decode at position 1 failing, yields the frame list for
positions 0 and 2 only. -/
theorem extract_frames_reads_interval_witness :
    ([(tcA, tcB)] : List (Timecode × Timecode))[0]? = some (tcA, tcB) ∧
    (∃ b : SceneBundle ℕ,
      (extract_frames capSample [(tcA, tcB)])[0]? = some (0, b) ∧
      b.frames =
        (List.range' tcA.getFrames (tcB.getFrames - tcA.getFrames)).filterMap
          capSample.decode ∧
      b.frames.length ≤ tcB.getFrames - tcA.getFrames) :=
  ⟨rfl, extract_frames_reads_interval capSample [(tcA, tcB)] 0 tcA tcB rfl⟩

/-- C9: every scene frame bundle produced by `extract_frames` has its
designated first frame equal to the head of its frame sequence — the
first collected frame when any frame was readable, and `none` (Python
`None`) when no frame was readable. -/
theorem extract_frames_first_frame {F : Type} (cap : VideoCapture F)
    (scene_list : List (Timecode × Timecode)) (p : ℕ × SceneBundle F)
    (hp : p ∈ extract_frames cap scene_list) :
    p.2.first_frame = p.2.frames.head? := by
  unfold extract_frames at hp
  rcases List.mem_map.mp hp with ⟨q, _, rfl⟩
  exact readFramesAux_snd cap _ _ [] none rfl

/-- C9 witness: the sample extraction produces the bundle with frames
`[0, 2]` and first frame `0`, which is the head of the frame list. -/
theorem extract_frames_first_frame_witness :
    (0, (⟨tcA, tcB, [0, 2], some 0⟩ : SceneBundle ℕ)) ∈
      extract_frames capSample [(tcA, tcB)] ∧
    ((⟨tcA, tcB, [0, 2], some 0⟩ : SceneBundle ℕ)).first_frame =
      ((⟨tcA, tcB, [0, 2], some 0⟩ : SceneBundle ℕ)).frames.head? :=
  ⟨by decide, extract_frames_first_frame capSample [(tcA, tcB)]
    (0, ⟨tcA, tcB, [0, 2], some 0⟩) (by decide)⟩

unseal Rat.add Rat.mul Rat.inv Rat.sub Rat.ofScientific in
/-- C6: the renderer's timestamp parser maps "0:01:30" to 90 seconds
and "1:00:00.5" to 3600.5 seconds. -/
theorem convert_timestamp_examples :
    convert_timestamp_to_seconds "0:01:30" = some 90 ∧
    convert_timestamp_to_seconds "1:00:00.5" = some (3600.5 : ℚ) := by
  exact ⟨by decide, by decide⟩

theorem not_contains_action (i : ℕ) :
    (! action_indices.contains i) = decide (10 ≤ i) := by
  have h : action_indices.contains i = decide (i < 10) := by
    by_cases hi : i < 10
    · interval_cases i <;> decide
    · have hf : action_indices.contains i = false := by
        simp [action_indices]
        omega
      rw [hf]
      simp [hi]
  rw [h]
  by_cases hi : i < 10 <;> simp [hi] <;> omega

theorem filter_ge_range (M : ℕ) :
    (List.range M).filter (fun i => decide (10 ≤ i)) =
      List.range' 10 (M - 10) := by
  induction M with
  | zero => rfl
  | succ n ih =>
    rw [List.range_succ, List.filter_append, ih]
    by_cases h : 10 ≤ n
    · have h1 : List.filter (fun i => decide (10 ≤ i)) [n] = [n] := by
        simp [List.filter, h]
      rw [h1]
      have h2 : n + 1 - 10 = (n - 10) + 1 := by omega
      rw [h2, List.range'_concat]
      congr 1
      · congr 1
        omega
    · have h1 : List.filter (fun i => decide (10 ≤ i)) [n] = [] := by
        simp [List.filter, h]
      rw [h1]
      have h2 : n + 1 - 10 = n - 10 := by omega
      rw [h2, List.append_nil]

theorem context_indices_eq (M : ℕ) :
    context_indices M = List.range' 10 (M - 10) := by
  unfold context_indices
  rw [List.filter_congr (fun i _ => not_contains_action i)]
  exact filter_ge_range M

theorem context_indices_length (M : ℕ) :
    (context_indices M).length = M - 10 := by
  rw [context_indices_eq, List.length_range']

theorem sum_at_range' {α : Type} [LinearOrderedField α] (l : List α) :
    ∀ (n a : ℕ), a + n ≤ l.length →
      sum_at? l (List.range' a n) = some (((l.drop a).take n).sum) := by
  intro n
  induction n with
  | zero => intro a _; simp [sum_at?]
  | succ k ih =>
    intro a ha
    rw [List.range'_succ]
    have hlt : a < l.length := by omega
    have hget : l[a]? = some l[a] := List.getElem?_eq_getElem hlt
    simp only [sum_at?, hget]
    rw [ih (a + 1) (by omega)]
    rw [List.drop_eq_getElem_cons hlt, List.take_succ_cons, List.sum_cons]

theorem action_indices_eq : action_indices = List.range' 0 10 := by decide

theorem sum_at_action {α : Type} [LinearOrderedField α] (l : List α)
    (h : 10 ≤ l.length) :
    sum_at? l action_indices = some ((l.take 10).sum) := by
  rw [action_indices_eq, sum_at_range' l 10 0 (by omega), List.drop_zero]

theorem sum_at_context {α : Type} [LinearOrderedField α] (l : List α)
    (h : 10 ≤ l.length) :
    sum_at? l (context_indices l.length) = some ((l.drop 10).sum) := by
  rw [context_indices_eq, sum_at_range' l (l.length - 10) 10 (by omega)]
  rw [List.take_of_length_le (le_of_eq (List.length_drop 10 l))]

theorem frameAccumAux_snd {α : Type} [LinearOrderedField α] :
    ∀ (fs : List (Frame α)) (acc : List α × ℕ),
      (frameAccumAux acc fs).2 =
        acc.2 + fs.countP (fun f => f.score.isSome) := by
  intro fs
  induction fs with
  | nil => intro acc; simp [frameAccumAux]
  | cons f fs ih =>
    intro acc
    cases hs : f.score with
    | some probs =>
      simp only [frameAccumAux, hs, ih, List.countP_cons]
      simp [hs]
      omega
    | none =>
      simp only [frameAccumAux, hs, ih, List.countP_cons]
      simp [hs]

theorem frameAccum_pos_iff {α : Type} [LinearOrderedField α] (M : ℕ)
    (frames : List (Frame α)) :
    0 < (frameAccum M frames).2 ↔ ∃ f ∈ frames, f.score ≠ none := by
  rw [frameAccum, frameAccumAux_snd]
  simp only [Nat.zero_add, List.countP_pos_iff]
  constructor
  · rintro ⟨f, hf, hs⟩
    exact ⟨f, hf, by simp [Option.isSome_iff_ne_none] at hs; exact hs⟩
  · rintro ⟨f, hf, hs⟩
    exact ⟨f, hf, by simp [Option.isSome_iff_ne_none]; exact hs⟩

theorem frameAccumAux_length {α : Type} [LinearOrderedField α] (M : ℕ) :
    ∀ (fs : List (Frame α)) (acc : List α × ℕ), acc.1.length = M →
      (∀ f ∈ fs, ∀ l, f.score = some l → l.length = M) →
      (frameAccumAux acc fs).1.length = M := by
  intro fs
  induction fs with
  | nil => intro acc hacc _; simpa [frameAccumAux] using hacc
  | cons f fs ih =>
    intro acc hacc hall
    cases hs : f.score with
    | some probs =>
      simp only [frameAccumAux, hs]
      apply ih
      · have hp : probs.length = M := hall f (by simp) probs hs
        simp [List.length_zipWith, hacc, hp]
      · intro g hg l hl
        exact hall g (by simp [hg]) l hl
    | none =>
      simp only [frameAccumAux, hs]
      apply ih _ hacc
      intro g hg l hl
      exact hall g (by simp [hg]) l hl

theorem frameAccum_length {α : Type} [LinearOrderedField α] (M : ℕ)
    (frames : List (Frame α))
    (h : ∀ f ∈ frames, ∀ l, f.score = some l → l.length = M) :
    (frameAccum M frames).1.length = M :=
  frameAccumAux_length M frames _ (by simp) h

theorem sceneMeanScores_length {α : Type} [LinearOrderedField α] (M : ℕ)
    (frames : List (Frame α))
    (h : ∀ f ∈ frames, ∀ l, f.score = some l → l.length = M) :
    (sceneMeanScores M frames).length = M := by
  rw [sceneMeanScores, List.length_map]
  exact frameAccum_length M frames h

theorem pyMax_foldl {α : Type} [LinearOrder α] :
    ∀ (as : List α) (a : α),
      (as.foldl max a ∈ a :: as) ∧ ∀ x ∈ a :: as, x ≤ as.foldl max a := by
  intro as
  induction as with
  | nil => intro a; simp
  | cons b bs ih =>
    intro a
    have hstep : (b :: bs).foldl max a = bs.foldl max (max a b) := rfl
    obtain ⟨hmem, hle⟩ := ih (max a b)
    constructor
    · rw [hstep]
      rcases List.mem_cons.mp hmem with hm | hm
      · rcases max_choice a b with hab | hab
        · rw [hm, hab]
          exact List.mem_cons_self _ _
        · rw [hm, hab]
          exact List.mem_cons_of_mem _ (List.mem_cons_self _ _)
      · exact List.mem_cons_of_mem _ (List.mem_cons_of_mem _ hm)
    · intro x hx
      rw [hstep]
      rcases List.mem_cons.mp hx with hm | hm
      · subst hm
        exact le_trans (le_max_left x b) (hle (x ⊔ b) (List.mem_cons_self _ _))
      · rcases List.mem_cons.mp hm with hm2 | hm2
        · subst hm2
          exact le_trans (le_max_right a x)
            (hle (a ⊔ x) (List.mem_cons_self _ _))
        · exact hle x (List.mem_cons_of_mem _ hm2)

theorem pyMax_spec {α : Type} [LinearOrder α] (l : List α) (m : α)
    (h : pyMax? l = some m) : m ∈ l ∧ ∀ x ∈ l, x ≤ m := by
  cases l with
  | nil => simp [pyMax?] at h
  | cons a as =>
    simp only [pyMax?, Option.some.injEq] at h
    subst h
    exact pyMax_foldl as a

theorem list_index_lt_length {α : Type} [DecidableEq α] :
    ∀ (l : List α) (x : α), x ∈ l → list_index l x < l.length := by
  intro l
  induction l with
  | nil => intro x hx; simp at hx
  | cons a as ih =>
    intro x hx
    by_cases hax : a = x
    · simp [list_index, hax]
    · rcases List.mem_cons.mp hx with hm | hm
      · exact absurd hm.symm hax
      · simpa [list_index, hax] using ih x hm

theorem list_index_getElem {α : Type} [DecidableEq α] :
    ∀ (l : List α) (x : α), x ∈ l → l[list_index l x]? = some x := by
  intro l
  induction l with
  | nil => intro x hx; simp at hx
  | cons a as ih =>
    intro x hx
    by_cases hax : a = x
    · simp [list_index, hax]
    · rcases List.mem_cons.mp hx with hm | hm
      · exact absurd hm.symm hax
      · simpa [list_index, hax] using ih x hm

theorem list_index_first {α : Type} [DecidableEq α] :
    ∀ (l : List α) (x : α) (k : ℕ), k < list_index l x → l[k]? ≠ some x := by
  intro l
  induction l with
  | nil => intro x k hk; simp [list_index] at hk
  | cons a as ih =>
    intro x k hk
    by_cases hax : a = x
    · simp [list_index, hax] at hk
    · cases k with
      | zero => simpa using hax
      | succ j =>
        simp only [list_index, hax, if_false] at hk
        simpa using ih x j (by omega)

theorem classifyScene_ok_elim {α : Type} [LinearOrderedField α]
    [DecidableEq α] (dt : List String) (sd : SceneBundle (Frame α))
    (r : SceneRecord α) (h : classifyScene dt sd = Except.ok (some r)) :
    ∃ (ff : Frame α) (a csum mx : α) (bd : String),
      sd.first_frame = some ff ∧ ff.isNdarray = true ∧
      0 < (frameAccum dt.length sd.frames).2 ∧
      actionConfidence? (sceneMeanScores dt.length sd.frames) = some a ∧
      sum_at? (sceneMeanScores dt.length sd.frames)
        (context_indices dt.length) = some csum ∧
      (context_indices dt.length).length ≠ 0 ∧
      pyMax? (sceneMeanScores dt.length sd.frames) = some mx ∧
      dt[list_index (sceneMeanScores dt.length sd.frames) mx]? = some bd ∧
      r = (if a > csum / ((context_indices dt.length).length : α) then
            ⟨"Action Scene", a, sd.start_time.toStr, sd.end_time.toStr,
             sd.end_time.getSeconds - sd.start_time.getSeconds, ff, bd⟩
          else
            ⟨"Context Scene", csum / ((context_indices dt.length).length : α),
             sd.start_time.toStr, sd.end_time.toStr,
             sd.end_time.getSeconds - sd.start_time.getSeconds, ff, bd⟩) := by
  unfold classifyScene at h
  split at h
  next => simp at h
  next ff hff =>
    split at h
    next hnd =>
      split at h
      next hvf =>
        split at h
        next => simp at h
        next a hac =>
          split at h
          next => simp at h
          next csum hcs =>
            split at h
            next => simp at h
            next hlen =>
              split at h
              next => simp at h
              next mx hmx =>
                split at h
                next => simp at h
                next bd hbd =>
                  split at h
                  next hgt =>
                    simp only [Except.ok.injEq, Option.some.injEq] at h
                    exact ⟨ff, a, csum, mx, bd, hff, hnd, hvf, hac, hcs,
                      hlen, hmx, hbd, by rw [if_pos hgt]; exact h.symm⟩
                  next hgt =>
                    simp only [Except.ok.injEq, Option.some.injEq] at h
                    exact ⟨ff, a, csum, mx, bd, hff, hnd, hvf, hac, hcs,
                      hlen, hmx, hbd, by rw [if_neg hgt]; exact h.symm⟩
      next => simp at h
    next => simp at h

theorem classifyScene_total {α : Type} [LinearOrderedField α]
    [DecidableEq α] (dt : List String) (sd : SceneBundle (Frame α))
    (hM : 11 ≤ dt.length)
    (hlen : ∀ f ∈ sd.frames, ∀ l, f.score = some l → l.length = dt.length) :
    (∃ r, classifyScene dt sd = Except.ok (some r)) ∨
      classifyScene dt sd = Except.ok none := by
  have hL : (sceneMeanScores dt.length sd.frames).length = dt.length :=
    sceneMeanScores_length _ _ hlen
  have h10 : (10 : ℕ) ≤ (sceneMeanScores dt.length sd.frames).length := by
    omega
  have hac : actionConfidence? (sceneMeanScores dt.length sd.frames) =
      some (((sceneMeanScores dt.length sd.frames).take 10).sum /
        (action_indices.length : α)) := by
    simp [actionConfidence?, sum_at_action _ h10]
  have hcs : sum_at? (sceneMeanScores dt.length sd.frames)
      (context_indices dt.length) =
      some (((sceneMeanScores dt.length sd.frames).drop 10).sum) := by
    have hc := sum_at_context (sceneMeanScores dt.length sd.frames) h10
    rwa [hL] at hc
  have hlen0 : ¬ (context_indices dt.length).length = 0 := by
    rw [context_indices_length]
    omega
  have hmx : ∃ m, pyMax? (sceneMeanScores dt.length sd.frames) = some m := by
    cases hsc : sceneMeanScores dt.length sd.frames with
    | nil => rw [hsc] at hL; simp at hL; omega
    | cons a as => exact ⟨as.foldl max a, rfl⟩
  obtain ⟨m, hm⟩ := hmx
  have hmem : m ∈ sceneMeanScores dt.length sd.frames :=
    (pyMax_spec _ m hm).1
  have hidx : list_index (sceneMeanScores dt.length sd.frames) m <
      dt.length := by
    have := list_index_lt_length _ m hmem
    omega
  have hbd : dt[list_index (sceneMeanScores dt.length sd.frames) m]? =
      some (dt.get ⟨list_index (sceneMeanScores dt.length sd.frames) m,
        hidx⟩) := by
    rw [List.getElem?_eq_getElem hidx, List.get_eq_getElem]
  unfold classifyScene
  split
  next => right; rfl
  next ff hff =>
    split
    next hnd =>
      split
      next hvf =>
        simp only [hac, hcs, hm]
        simp only [hbd]
        split
        next hgt => exact Or.inl ⟨_, rfl⟩
        next hgt => exact Or.inl ⟨_, rfl⟩
      next hvf => right; rfl
    next hnd => right; rfl

theorem classify_mem_of {α : Type} [LinearOrderedField α] [DecidableEq α]
    (dt : List String) :
    ∀ (scenes : List (ℕ × SceneBundle (Frame α)))
      (out : List (ℕ × SceneRecord α)),
      classify_and_categorize_scenes scenes dt = Except.ok out →
      ∀ sid sd, (sid, sd) ∈ scenes →
        ∃ o, classifyScene dt sd = Except.ok o ∧
          ∀ r, o = some r → (sid, r) ∈ out := by
  intro scenes
  induction scenes with
  | nil => intro out _ sid sd h; simp at h
  | cons p rest ih =>
    intro out hok sid sd hmem
    obtain ⟨pid, psd⟩ := p
    unfold classify_and_categorize_scenes at hok
    rcases List.mem_cons.mp hmem with hm | hm
    · obtain ⟨h1, h2⟩ := Prod.mk.injEq .. ▸ hm
      subst h1; subst h2
      split at hok
      next e he => simp at hok
      next hnone =>
        exact ⟨none, hnone, by intro r hr; simp at hr⟩
      next r0 hsome =>
        split at hok
        next e he => simp at hok
        next out2 hout2 =>
          refine ⟨some r0, hsome, ?_⟩
          intro r hr
          obtain rfl : r0 = r := by simpa using hr
          simp only [Except.ok.injEq] at hok
          rw [← hok]
          exact List.mem_cons_self _ _
    · split at hok
      next e he => simp at hok
      next hnone => exact ih out hok sid sd hm
      next r0 hsome =>
        split at hok
        next e he => simp at hok
        next out2 hout2 =>
          obtain ⟨o, ho, hall⟩ := ih out2 hout2 sid sd hm
          refine ⟨o, ho, ?_⟩
          intro r hr
          simp only [Except.ok.injEq] at hok
          rw [← hok]
          exact List.mem_cons_of_mem _ (hall r hr)

theorem classify_mem_rev {α : Type} [LinearOrderedField α] [DecidableEq α]
    (dt : List String) :
    ∀ (scenes : List (ℕ × SceneBundle (Frame α)))
      (out : List (ℕ × SceneRecord α)),
      classify_and_categorize_scenes scenes dt = Except.ok out →
      ∀ sid r, (sid, r) ∈ out →
        ∃ sd, (sid, sd) ∈ scenes ∧
          classifyScene dt sd = Except.ok (some r) := by
  intro scenes
  induction scenes with
  | nil =>
    intro out hok sid r h
    unfold classify_and_categorize_scenes at hok
    simp only [Except.ok.injEq] at hok
    rw [← hok] at h
    simp at h
  | cons p rest ih =>
    intro out hok sid r hmem
    obtain ⟨pid, psd⟩ := p
    unfold classify_and_categorize_scenes at hok
    split at hok
    next e he => simp at hok
    next hnone =>
      obtain ⟨sd, hsd, hcl⟩ := ih out hok sid r hmem
      exact ⟨sd, List.mem_cons_of_mem _ hsd, hcl⟩
    next r0 hsome =>
      split at hok
      next e he => simp at hok
      next out2 hout2 =>
        simp only [Except.ok.injEq] at hok
        rw [← hok] at hmem
        rcases List.mem_cons.mp hmem with hm | hm
        · obtain ⟨h1, h2⟩ := Prod.mk.injEq .. ▸ hm
          subst h1; subst h2
          exact ⟨psd, List.mem_cons_self _ _, hsome⟩
        · obtain ⟨sd, hsd, hcl⟩ := ih out2 hout2 sid r hm
          exact ⟨sd, List.mem_cons_of_mem _ hsd, hcl⟩

theorem classify_total {α : Type} [LinearOrderedField α] [DecidableEq α]
    (dt : List String) (hM : 11 ≤ dt.length) :
    ∀ (scenes : List (ℕ × SceneBundle (Frame α))),
      (∀ p ∈ scenes, ∀ f ∈ p.2.frames, ∀ l, f.score = some l →
        l.length = dt.length) →
      ∃ out, classify_and_categorize_scenes scenes dt = Except.ok out := by
  intro scenes
  induction scenes with
  | nil => intro _; exact ⟨[], rfl⟩
  | cons p rest ih =>
    intro hall
    obtain ⟨pid, psd⟩ := p
    obtain ⟨out2, hout2⟩ := ih (fun q hq => hall q (List.mem_cons_of_mem _ hq))
    have hhead := classifyScene_total dt psd hM
      (fun f hf => hall (pid, psd) (List.mem_cons_self _ _) f hf)
    unfold classify_and_categorize_scenes
    rcases hhead with ⟨r, hr⟩ | hr
    · rw [hr, hout2]
      exact ⟨(pid, r) :: out2, rfl⟩
    · rw [hr, hout2]
      exact ⟨out2, rfl⟩

theorem classifyScene_skip_invalid {α : Type} [LinearOrderedField α]
    [DecidableEq α] (dt : List String) (sd : SceneBundle (Frame α))
    (hbad : ∀ ff, sd.first_frame = some ff → ff.isNdarray = false) :
    classifyScene dt sd = Except.ok none := by
  unfold classifyScene
  cases hff : sd.first_frame with
  | none => rfl
  | some ff =>
    have hf : ff.isNdarray = false := hbad ff hff
    simp [hf]

theorem classifyScene_skip_unscored {α : Type} [LinearOrderedField α]
    [DecidableEq α] (dt : List String) (sd : SceneBundle (Frame α))
    (hns : ∀ f ∈ sd.frames, f.score = none) :
    classifyScene dt sd = Except.ok none := by
  have hvf : ¬ 0 < (frameAccum dt.length sd.frames).2 := by
    rw [frameAccum_pos_iff]
    rintro ⟨f, hf, hsc⟩
    exact hsc (hns f hf)
  unfold classifyScene
  cases hff : sd.first_frame with
  | none => rfl
  | some ff =>
    by_cases hnd : ff.isNdarray = true
    · simp [hnd, hvf]
    · simp [Bool.eq_false_iff.mpr hnd]

theorem classifyScene_ok_none_elim {α : Type} [LinearOrderedField α]
    [DecidableEq α] (dt : List String) (sd : SceneBundle (Frame α))
    (h : classifyScene dt sd = Except.ok none) :
    (∀ ff, sd.first_frame = some ff → ff.isNdarray = false) ∨
      ¬ 0 < (frameAccum dt.length sd.frames).2 := by
  unfold classifyScene at h
  split at h
  next hff => left; intro ff h2; rw [hff] at h2; cases h2
  next ff hff =>
    split at h
    next hnd =>
      split at h
      next hvf =>
        split at h
        next => simp at h
        next a ha =>
          split at h
          next => simp at h
          next csum hcs =>
            split at h
            next => simp at h
            next =>
              split at h
              next => simp at h
              next mx hmx =>
                split at h
                next => simp at h
                next bd hbd =>
                  split at h
                  next => simp at h
                  next => simp at h
      next hvf => right; exact hvf
    next hnd =>
      left
      intro ff2 h2
      rw [hff] at h2
      injection h2 with h3
      subst h3
      exact Bool.eq_false_iff.mpr hnd

theorem classifyScene_emits {α : Type} [LinearOrderedField α]
    [DecidableEq α] (dt : List String) (sd : SceneBundle (Frame α))
    (hM : 11 ≤ dt.length)
    (hlen : ∀ f ∈ sd.frames, ∀ l, f.score = some l → l.length = dt.length)
    (ff : Frame α) (hff : sd.first_frame = some ff)
    (hnd : ff.isNdarray = true)
    (hscored : ∃ f ∈ sd.frames, f.score ≠ none) :
    ∃ r, classifyScene dt sd = Except.ok (some r) := by
  rcases classifyScene_total dt sd hM hlen with hr | hr
  · exact hr
  · rcases classifyScene_ok_none_elim dt sd hr with hbad | hvf
    · rw [hbad ff hff] at hnd
      cases hnd
    · exact absurd ((frameAccum_pos_iff _ _).mpr hscored) hvf

theorem sum_map_div {β α : Type} [DivisionRing α] (l : List β) (f : β → α)
    (c : α) : (l.map (fun x => f x / c)).sum = (l.map f).sum / c := by
  induction l with
  | nil => simp
  | cons a t ih => simp [ih, add_div]

theorem softmax_nonneg_sum_one (logits : List ℝ) (h : logits ≠ []) :
    (∀ x ∈ softmax logits, 0 ≤ x) ∧ (softmax logits).sum = 1 := by
  have hpos : 0 < (logits.map Real.exp).sum := by
    apply List.sum_pos
    · intro x hx
      obtain ⟨y, _, rfl⟩ := List.mem_map.mp hx
      exact Real.exp_pos y
    · simpa using h
  constructor
  · intro x hx
    obtain ⟨y, _, rfl⟩ := List.mem_map.mp hx
    exact div_nonneg (Real.exp_pos y).le hpos.le
  · rw [softmax, sum_map_div, div_self (ne_of_gt hpos)]

theorem mem_zipWith_add {α : Type} [LinearOrderedField α] :
    ∀ (l1 l2 : List α) (x : α),
      x ∈ List.zipWith (fun a b => a + b) l1 l2 →
      ∃ a ∈ l1, ∃ b ∈ l2, x = a + b := by
  intro l1
  induction l1 with
  | nil => intro l2 x hx; simp at hx
  | cons a t ih =>
    intro l2 x hx
    cases l2 with
    | nil => simp at hx
    | cons b t2 =>
      simp only [List.zipWith_cons_cons, List.mem_cons] at hx
      rcases hx with rfl | hx
      · exact ⟨a, by simp, b, by simp, rfl⟩
      · obtain ⟨a2, ha2, b2, hb2, rfl⟩ := ih t2 x hx
        exact ⟨a2, by simp [ha2], b2, by simp [hb2], rfl⟩

theorem frameAccumAux_bounds {α : Type} [LinearOrderedField α] :
    ∀ (fs : List (Frame α)) (acc : List α × ℕ),
      (∀ x ∈ acc.1, 0 ≤ x ∧ x ≤ (acc.2 : α)) →
      (∀ f ∈ fs, ∀ l, f.score = some l → ∀ x ∈ l, 0 ≤ x ∧ x ≤ 1) →
      ∀ x ∈ (frameAccumAux acc fs).1,
        0 ≤ x ∧ x ≤ ((frameAccumAux acc fs).2 : α) := by
  intro fs
  induction fs with
  | nil => intro acc hacc _; simpa [frameAccumAux] using hacc
  | cons f fs ih =>
    intro acc hacc hall
    cases hs : f.score with
    | some probs =>
      simp only [frameAccumAux, hs]
      apply ih
      · intro x hx
        obtain ⟨a, ha, b, hb, rfl⟩ := mem_zipWith_add _ _ x hx
        have h1 := hacc a ha
        have h2 := hall f (by simp) probs hs b hb
        constructor
        · exact add_nonneg h1.1 h2.1
        · push_cast
          calc a + b ≤ (acc.2 : α) + 1 := add_le_add h1.2 h2.2
            _ = (acc.2 : α) + 1 := rfl
      · intro g hg l hl
        exact hall g (by simp [hg]) l hl
    | none =>
      simp only [frameAccumAux, hs]
      apply ih
      · exact hacc
      · intro g hg l hl
        exact hall g (by simp [hg]) l hl

theorem sceneMeanScores_bounds {α : Type} [LinearOrderedField α] (M : ℕ)
    (frames : List (Frame α))
    (hp : ∀ f ∈ frames, ∀ l, f.score = some l → ∀ x ∈ l, 0 ≤ x ∧ x ≤ 1) :
    ∀ x ∈ sceneMeanScores M frames, 0 ≤ x ∧ x ≤ 1 := by
  intro x hx
  rw [sceneMeanScores] at hx
  obtain ⟨y, hy, rfl⟩ := List.mem_map.mp hx
  have hb : ∀ z ∈ (frameAccum M frames).1,
      0 ≤ z ∧ z ≤ ((frameAccum M frames).2 : α) := by
    apply frameAccumAux_bounds frames (List.replicate M 0, 0)
    · intro z hz
      have hz0 : z = 0 := List.eq_of_mem_replicate hz
      simp [hz0]
    · exact hp
  obtain ⟨hy0, hyv⟩ := hb y hy
  by_cases hv : (frameAccum M frames).2 = 0
  · rw [hv]
    simp
  · have hvpos : (0 : α) < ((frameAccum M frames).2 : α) := by
      have : 0 < (frameAccum M frames).2 := Nat.pos_of_ne_zero hv
      exact_mod_cast this
    exact ⟨div_nonneg hy0 hvpos.le, (div_le_one hvpos).mpr hyv⟩

theorem sceneGood11_score_len :
    ∀ f ∈ sceneGood11.frames, ∀ l : List ℚ, f.score = some l →
      l.length = phrases11.length := by
  intro f hf l hl
  have hf2 : f = frameGood11 ∨ f = frameBad := by
    simpa [sceneGood11] using hf
  rcases hf2 with rfl | rfl
  · simp only [frameGood11, Option.some.injEq] at hl
    rw [← hl]
    rfl
  · simp [frameBad] at hl

unseal Rat.add Rat.mul Rat.inv Rat.sub in
/-- C1 counterexample: with a vocabulary of exactly 10 phrases —
permitted by the claim's "at least 10" — and a scene whose first frame
is a valid image and whose frame is successfully scored, the classifier
raises ZeroDivisionError (the context index subset is empty), so it
does not complete without error and emits nothing. -/
theorem classify_ten_phrases_divzero :
    classify_and_categorize_scenes [(0, sceneGood10)] phrases10 =
      Except.error "ZeroDivisionError" := by
  decide

/-- C1 (amended): for every vocabulary of strictly more than 10 phrases
(at least 11) — each scored frame carrying one softmax score per
phrase — `classify_and_categorize_scenes` completes without error (in
particular without division by zero and without an out-of-range index
in the confidence computation), and it emits a Scene Classification
Record for every scene whose first frame is a valid image and in which
at least one frame is successfully scored. -/
theorem classify_eleven_phrases_safe {α : Type} [LinearOrderedField α]
    [DecidableEq α] (dt : List String)
    (scenes : List (ℕ × SceneBundle (Frame α)))
    (hM : 11 ≤ dt.length)
    (hlen : ∀ p ∈ scenes, ∀ f ∈ p.2.frames, ∀ l, f.score = some l →
      l.length = dt.length) :
    ∃ out, classify_and_categorize_scenes scenes dt = Except.ok out ∧
      ∀ p ∈ scenes,
        (∃ ff, p.2.first_frame = some ff ∧ ff.isNdarray = true) →
        (∃ f ∈ p.2.frames, f.score ≠ none) →
        ∃ r, (p.1, r) ∈ out := by
  obtain ⟨out, hout⟩ := classify_total dt hM scenes hlen
  refine ⟨out, hout, ?_⟩
  rintro p hp ⟨ff, hff, hnd⟩ hscored
  obtain ⟨r, hr⟩ := classifyScene_emits dt p.2 hM
    (hlen p hp) ff hff hnd hscored
  obtain ⟨o, ho, hall⟩ := classify_mem_of dt scenes out hout p.1 p.2
    (by simpa using hp)
  rw [hr] at ho
  simp only [Except.ok.injEq] at ho
  exact ⟨r, hall r ho.symm⟩

unseal Rat.add Rat.mul Rat.inv Rat.sub in
/-- C1 witness: with 11 phrases and the sample scene (valid first
frame, one scored frame, one failing frame), the classifier returns
without error and emits a record for the scene. -/
theorem classify_eleven_phrases_safe_witness :
    (11 ≤ phrases11.length ∧
      ∀ p ∈ [(0, sceneGood11)], ∀ f ∈ p.2.frames, ∀ l : List ℚ,
        f.score = some l → l.length = phrases11.length) ∧
    ∃ out, classify_and_categorize_scenes [(0, sceneGood11)] phrases11 =
        Except.ok out ∧
      ∀ p ∈ [(0, sceneGood11)],
        (∃ ff, p.2.first_frame = some ff ∧ ff.isNdarray = true) →
        (∃ f ∈ p.2.frames, f.score ≠ none) →
        ∃ r, (p.1, r) ∈ out := by
  have hlen : ∀ p ∈ [(0, sceneGood11)], ∀ f ∈ p.2.frames, ∀ l : List ℚ,
      f.score = some l → l.length = phrases11.length := by
    intro p hp
    have hp2 : p = (0, sceneGood11) := by simpa using hp
    rw [hp2]
    exact sceneGood11_score_len
  exact ⟨⟨by decide, hlen⟩,
    classify_eleven_phrases_safe phrases11 [(0, sceneGood11)]
      (by decide) hlen⟩

/-- C2: an emitted record's category is "Action Scene" with the action
confidence exactly when the action confidence strictly exceeds the
context confidence; otherwise — including exact equality — it is
"Context Scene" with the context confidence. -/
theorem category_assignment {α : Type} [LinearOrderedField α]
    [DecidableEq α] (dt : List String) (sd : SceneBundle (Frame α))
    (r : SceneRecord α) (h : classifyScene dt sd = Except.ok (some r))
    (a c : α)
    (ha : actionConfidence? (sceneMeanScores dt.length sd.frames) = some a)
    (hc : (sum_at? (sceneMeanScores dt.length sd.frames)
        (context_indices dt.length)).map
        (fun s => s / ((context_indices dt.length).length : α)) = some c) :
    (a > c → r.category = "Action Scene" ∧ r.confidence = a) ∧
    (¬ a > c → r.category = "Context Scene" ∧ r.confidence = c) := by
  obtain ⟨ff, a2, csum, mx, bd, hff, hnd, hvf, ha2, hcs2, hl0, hmx, hbd, hr⟩ :=
    classifyScene_ok_elim dt sd r h
  rw [ha2] at ha
  simp only [Option.some.injEq] at ha
  rw [hcs2] at hc
  simp only [Option.map_some', Option.some.injEq] at hc
  rw [ha] at hr
  rw [hc] at hr
  constructor
  · intro hgt
    rw [hr, if_pos hgt]
    exact ⟨rfl, rfl⟩
  · intro hgt
    rw [hr, if_neg hgt]
    exact ⟨rfl, rfl⟩

unseal Rat.add Rat.mul Rat.inv Rat.sub in
/-- C2 witness: in the sample scene the action confidence 1/10 exceeds
the context confidence 0 and the emitted record is "Action Scene" with
confidence 1/10. -/
theorem category_assignment_witness :
    (classifyScene phrases11 sceneGood11 = Except.ok (some recGood11) ∧
     actionConfidence?
       (sceneMeanScores phrases11.length sceneGood11.frames) =
         some (1 / 10) ∧
     (sum_at? (sceneMeanScores phrases11.length sceneGood11.frames)
        (context_indices phrases11.length)).map
        (fun s => s / ((context_indices phrases11.length).length : ℚ)) =
       some 0) ∧
    (((1 : ℚ) / 10 > 0 →
        recGood11.category = "Action Scene" ∧ recGood11.confidence = 1 / 10) ∧
     (¬ (1 : ℚ) / 10 > 0 →
        recGood11.category = "Context Scene" ∧ recGood11.confidence = 0)) :=
  ⟨⟨by decide, by decide, by decide⟩,
   category_assignment phrases11 sceneGood11 recGood11 (by decide)
     (1 / 10) 0 (by decide) (by decide)⟩

/-- C10: every emitted record's confidence is the maximum of the action
and context confidences, hence at least each of them. -/
theorem confidence_is_max {α : Type} [LinearOrderedField α]
    [DecidableEq α] (dt : List String) (sd : SceneBundle (Frame α))
    (r : SceneRecord α) (h : classifyScene dt sd = Except.ok (some r))
    (a c : α)
    (ha : actionConfidence? (sceneMeanScores dt.length sd.frames) = some a)
    (hc : (sum_at? (sceneMeanScores dt.length sd.frames)
        (context_indices dt.length)).map
        (fun s => s / ((context_indices dt.length).length : α)) = some c) :
    r.confidence = max a c ∧ a ≤ r.confidence ∧ c ≤ r.confidence := by
  obtain ⟨ff, a2, csum, mx, bd, hff, hnd, hvf, ha2, hcs2, hl0, hmx, hbd, hr⟩ :=
    classifyScene_ok_elim dt sd r h
  rw [ha2] at ha
  simp only [Option.some.injEq] at ha
  rw [hcs2] at hc
  simp only [Option.map_some', Option.some.injEq] at hc
  rw [ha] at hr
  rw [hc] at hr
  have hconf : r.confidence = max a c := by
    by_cases hgt : a > c
    · rw [hr, if_pos hgt]
      simp [max_eq_left hgt.le]
    · rw [hr, if_neg hgt]
      simp [max_eq_right (le_of_not_lt hgt)]
  exact ⟨hconf, hconf ▸ le_max_left a c, hconf ▸ le_max_right a c⟩

unseal Rat.add Rat.mul Rat.inv Rat.sub in
/-- C10 witness: the sample record's confidence 1/10 is the maximum of
action confidence 1/10 and context confidence 0. -/
theorem confidence_is_max_witness :
    (classifyScene phrases11 sceneGood11 = Except.ok (some recGood11) ∧
     actionConfidence?
       (sceneMeanScores phrases11.length sceneGood11.frames) =
         some (1 / 10) ∧
     (sum_at? (sceneMeanScores phrases11.length sceneGood11.frames)
        (context_indices phrases11.length)).map
        (fun s => s / ((context_indices phrases11.length).length : ℚ)) =
       some 0) ∧
    (recGood11.confidence = max (1 / 10 : ℚ) 0 ∧
     (1 / 10 : ℚ) ≤ recGood11.confidence ∧
     (0 : ℚ) ≤ recGood11.confidence) :=
  ⟨⟨by decide, by decide, by decide⟩,
   confidence_is_max phrases11 sceneGood11 recGood11 (by decide)
     (1 / 10) 0 (by decide) (by decide)⟩

/-- C3: for every classified scene (each scored frame carrying one
score per phrase), line 107's action confidence is the arithmetic mean
of the mean-score entries at indices 0 through 9, and line 108's
context confidence is the arithmetic mean of the entries at the
remaining M − 10 indices. -/
theorem confidence_partition_means {α : Type} [LinearOrderedField α]
    [DecidableEq α] (dt : List String) (sd : SceneBundle (Frame α))
    (r : SceneRecord α) (h : classifyScene dt sd = Except.ok (some r))
    (hlen : ∀ f ∈ sd.frames, ∀ l, f.score = some l →
      l.length = dt.length) :
    actionConfidence? (sceneMeanScores dt.length sd.frames) =
      some (((sceneMeanScores dt.length sd.frames).take 10).sum /
        (10 : α)) ∧
    (context_indices dt.length).length = dt.length - 10 ∧
    (sum_at? (sceneMeanScores dt.length sd.frames)
        (context_indices dt.length)).map
        (fun s => s / ((context_indices dt.length).length : α)) =
      some (((sceneMeanScores dt.length sd.frames).drop 10).sum /
        ((dt.length - 10 : ℕ) : α)) := by
  obtain ⟨ff, a, csum, mx, bd, hff, hnd, hvf, ha, hcs, hl0, hmx, hbd, hr⟩ :=
    classifyScene_ok_elim dt sd r h
  have hL : (sceneMeanScores dt.length sd.frames).length = dt.length :=
    sceneMeanScores_length _ _ hlen
  have hM : 10 ≤ dt.length := by
    by_contra hlt
    apply hl0
    rw [context_indices_length]
    omega
  refine ⟨?_, context_indices_length _, ?_⟩
  · rw [actionConfidence?, sum_at_action _ (by omega)]
    simp only [Option.map_some', Option.some.injEq]
    norm_num [action_indices]
  · have hc := sum_at_context (sceneMeanScores dt.length sd.frames)
      (by omega)
    rw [hL] at hc
    rw [hc, context_indices_length]
    simp

unseal Rat.add Rat.mul Rat.inv Rat.sub in
/-- C3 witness: in the sample scene with 11 phrases, the action
confidence is the mean of the first 10 mean-score entries and the
context confidence is the mean of the remaining one. -/
theorem confidence_partition_means_witness :
    (classifyScene phrases11 sceneGood11 = Except.ok (some recGood11) ∧
      ∀ f ∈ sceneGood11.frames, ∀ l : List ℚ, f.score = some l →
        l.length = phrases11.length) ∧
    (actionConfidence?
        (sceneMeanScores phrases11.length sceneGood11.frames) =
      some (((sceneMeanScores phrases11.length sceneGood11.frames).take
        10).sum / (10 : ℚ)) ∧
    (context_indices phrases11.length).length = phrases11.length - 10 ∧
    (sum_at? (sceneMeanScores phrases11.length sceneGood11.frames)
        (context_indices phrases11.length)).map
        (fun s => s / ((context_indices phrases11.length).length : ℚ)) =
      some (((sceneMeanScores phrases11.length sceneGood11.frames).drop
        10).sum / ((phrases11.length - 10 : ℕ) : ℚ))) :=
  ⟨⟨by decide, sceneGood11_score_len⟩,
   confidence_partition_means phrases11 sceneGood11 recGood11 (by decide)
     sceneGood11_score_len⟩

/-- C4: in a successful classification run, a scene whose first frame
is not a valid decoded image, and a scene none of whose frames was
successfully scored, are absent from the output mapping; a scene with a
valid first frame and at least one scored frame is present even when
other frames raised per-frame exceptions, which are non-fatal. -/
theorem scene_presence {α : Type} [LinearOrderedField α] [DecidableEq α]
    (dt : List String) (scenes : List (ℕ × SceneBundle (Frame α)))
    (out : List (ℕ × SceneRecord α))
    (hok : classify_and_categorize_scenes scenes dt = Except.ok out)
    (sid : ℕ) (sd : SceneBundle (Frame α)) (hmem : (sid, sd) ∈ scenes)
    (huniq : ∀ sd2, (sid, sd2) ∈ scenes → sd2 = sd) :
    ((∀ ff, sd.first_frame = some ff → ff.isNdarray = false) →
      ∀ r, (sid, r) ∉ out) ∧
    ((∀ f ∈ sd.frames, f.score = none) → ∀ r, (sid, r) ∉ out) ∧
    ((∃ ff, sd.first_frame = some ff ∧ ff.isNdarray = true) →
      (∃ f ∈ sd.frames, f.score ≠ none) → ∃ r, (sid, r) ∈ out) := by
  refine ⟨?_, ?_, ?_⟩
  · intro hbad r hr
    obtain ⟨sd2, hsd2, hcl⟩ := classify_mem_rev dt scenes out hok sid r hr
    rw [huniq sd2 hsd2] at hcl
    rw [classifyScene_skip_invalid dt sd hbad] at hcl
    simp at hcl
  · intro hns r hr
    obtain ⟨sd2, hsd2, hcl⟩ := classify_mem_rev dt scenes out hok sid r hr
    rw [huniq sd2 hsd2] at hcl
    rw [classifyScene_skip_unscored dt sd hns] at hcl
    simp at hcl
  · rintro ⟨ff, hff, hnd⟩ hscored
    obtain ⟨o, ho, hall⟩ := classify_mem_of dt scenes out hok sid sd hmem
    cases o with
    | none =>
      rcases classifyScene_ok_none_elim dt sd ho with hbad | hvf
      · rw [hbad ff hff] at hnd
        cases hnd
      · exact absurd ((frameAccum_pos_iff _ _).mpr hscored) hvf
    | some r => exact ⟨r, hall r rfl⟩

unseal Rat.add Rat.mul Rat.inv Rat.sub in
/-- C4 witness: the sample run keeps the scene with a valid first frame
and one scored frame (its second frame raised and is skipped). -/
theorem scene_presence_witness :
    (classify_and_categorize_scenes [(0, sceneGood11)] phrases11 =
        Except.ok [(0, recGood11)] ∧
      (0, sceneGood11) ∈ [(0, sceneGood11)] ∧
      ∀ sd2, (0, sd2) ∈ [(0, sceneGood11)] → sd2 = sceneGood11) ∧
    (((∀ ff, sceneGood11.first_frame = some ff → ff.isNdarray = false) →
        ∀ r, (0, r) ∉ [(0, recGood11)]) ∧
     ((∀ f ∈ sceneGood11.frames, f.score = none) →
        ∀ r, (0, r) ∉ [(0, recGood11)]) ∧
     ((∃ ff, sceneGood11.first_frame = some ff ∧ ff.isNdarray = true) →
        (∃ f ∈ sceneGood11.frames, f.score ≠ none) →
        ∃ r, (0, r) ∈ [(0, recGood11)])) := by
  have huniq : ∀ sd2, (0, sd2) ∈ [(0, sceneGood11)] → sd2 = sceneGood11 := by
    intro sd2 h2
    have h3 : (0, sd2) = ((0 : ℕ), sceneGood11) := by simpa using h2
    have h4 := congrArg Prod.snd h3
    simpa using h4
  exact ⟨⟨by decide, by decide, huniq⟩,
    scene_presence phrases11 [(0, sceneGood11)] [(0, recGood11)]
      (by decide) 0 sceneGood11 (by decide) huniq⟩

/-- C5: every emitted record's best description is the vocabulary
phrase at the first-occurring index of the maximal mean score: every
mean-score entry is at most the entry at that index, and every earlier
entry is strictly below it. -/
theorem best_description_argmax {α : Type} [LinearOrderedField α]
    [DecidableEq α] (dt : List String) (sd : SceneBundle (Frame α))
    (r : SceneRecord α) (h : classifyScene dt sd = Except.ok (some r)) :
    ∃ (j : ℕ) (hj : j < (sceneMeanScores dt.length sd.frames).length),
      dt[j]? = some r.best_description ∧
      (∀ k (hk : k < (sceneMeanScores dt.length sd.frames).length),
        (sceneMeanScores dt.length sd.frames).get ⟨k, hk⟩ ≤
          (sceneMeanScores dt.length sd.frames).get ⟨j, hj⟩) ∧
      (∀ k (hk : k < (sceneMeanScores dt.length sd.frames).length),
        k < j →
        (sceneMeanScores dt.length sd.frames).get ⟨k, hk⟩ <
          (sceneMeanScores dt.length sd.frames).get ⟨j, hj⟩) := by
  obtain ⟨ff, a, csum, mx, bd, hff, hnd, hvf, ha, hcs, hl0, hmx, hbd, hr⟩ :=
    classifyScene_ok_elim dt sd r h
  obtain ⟨hmem, hle⟩ := pyMax_spec _ mx hmx
  have hj : list_index (sceneMeanScores dt.length sd.frames) mx <
      (sceneMeanScores dt.length sd.frames).length :=
    list_index_lt_length _ mx hmem
  have hgetj : (sceneMeanScores dt.length sd.frames).get
      ⟨list_index (sceneMeanScores dt.length sd.frames) mx, hj⟩ = mx := by
    have hg := list_index_getElem _ mx hmem
    rw [List.getElem?_eq_getElem hj] at hg
    simpa [List.get_eq_getElem] using hg
  have hbdr : r.best_description = bd := by
    rw [hr]
    by_cases hgt : a > csum / ((context_indices dt.length).length : α)
    · rw [if_pos hgt]
    · rw [if_neg hgt]
  refine ⟨list_index (sceneMeanScores dt.length sd.frames) mx, hj,
    by rw [hbdr]; exact hbd, ?_, ?_⟩
  · intro k hk
    rw [hgetj]
    exact hle _ (List.get_mem _ _ _)
  · intro k hk hkj
    rw [hgetj]
    have hne := list_index_first (sceneMeanScores dt.length sd.frames) mx
      k hkj
    rw [List.getElem?_eq_getElem hk] at hne
    have hne2 : (sceneMeanScores dt.length sd.frames).get ⟨k, hk⟩ ≠ mx := by
      intro he
      apply hne
      rw [← he, List.get_eq_getElem]
    exact lt_of_le_of_ne (hle _ (List.get_mem _ _ _)) hne2

unseal Rat.add Rat.mul Rat.inv Rat.sub in
/-- C5 witness: in the sample scene the maximal mean score sits at
index 0 and the record's best description is the phrase at index 0. -/
theorem best_description_argmax_witness :
    classifyScene phrases11 sceneGood11 = Except.ok (some recGood11) ∧
    (∃ (j : ℕ)
      (hj : j < (sceneMeanScores phrases11.length
        sceneGood11.frames).length),
      phrases11[j]? = some recGood11.best_description ∧
      (∀ k (hk : k < (sceneMeanScores phrases11.length
          sceneGood11.frames).length),
        (sceneMeanScores phrases11.length sceneGood11.frames).get
            ⟨k, hk⟩ ≤
          (sceneMeanScores phrases11.length sceneGood11.frames).get
            ⟨j, hj⟩) ∧
      (∀ k (hk : k < (sceneMeanScores phrases11.length
          sceneGood11.frames).length), k < j →
        (sceneMeanScores phrases11.length sceneGood11.frames).get
            ⟨k, hk⟩ <
          (sceneMeanScores phrases11.length sceneGood11.frames).get
            ⟨j, hj⟩)) :=
  ⟨by decide,
   best_description_argmax phrases11 sceneGood11 recGood11 (by decide)⟩

/-- C7: every successfully scored frame's normalized score list — the
softmax of its similarity logits — is nonnegative and sums to 1, and
consequently any scene whose scored frames carry such softmax lists
(one entry per phrase) has a mean per-phrase score list of length equal
to the vocabulary size with every entry in [0, 1]. -/
theorem softmax_and_mean_bounds (logits : List ℝ) (hne : logits ≠ [])
    (M : ℕ) (frames : List (Frame ℝ))
    (hf : ∀ f ∈ frames, f.score = none ∨
      ∃ l, l ≠ [] ∧ l.length = M ∧ f.score = some (softmax l)) :
    ((∀ x ∈ softmax logits, 0 ≤ x) ∧ (softmax logits).sum = 1) ∧
    (sceneMeanScores M frames).length = M ∧
    ∀ x ∈ sceneMeanScores M frames, 0 ≤ x ∧ x ≤ 1 := by
  refine ⟨softmax_nonneg_sum_one logits hne, ?_, ?_⟩
  · apply sceneMeanScores_length
    intro f hff l hl
    rcases hf f hff with hnone | ⟨l2, hl2ne, hl2len, hl2⟩
    · rw [hnone] at hl
      cases hl
    · rw [hl2] at hl
      injection hl with h2
      rw [← h2, softmax, List.length_map, hl2len]
  · apply sceneMeanScores_bounds
    intro f hff l hl x hx
    rcases hf f hff with hnone | ⟨l2, hl2ne, hl2len, hl2⟩
    · rw [hnone] at hl
      cases hl
    · rw [hl2] at hl
      injection hl with h2
      subst h2
      have hs := softmax_nonneg_sum_one l2 hl2ne
      refine ⟨hs.1 x hx, ?_⟩
      calc x ≤ (softmax l2).sum := List.single_le_sum hs.1 x hx
        _ = 1 := hs.2

/-- C7 witness: the softmax of the single logit 0 is [1], which is
nonnegative and sums to 1, and the empty three-phrase scene's mean
score list is [0, 0, 0], inside [0, 1]. -/
theorem softmax_and_mean_bounds_witness :
    (([(0 : ℝ)] : List ℝ) ≠ [] ∧
      ∀ f ∈ ([] : List (Frame ℝ)), f.score = none ∨
        ∃ l, l ≠ [] ∧ l.length = 3 ∧ f.score = some (softmax l)) ∧
    (((∀ x ∈ softmax [(0 : ℝ)], 0 ≤ x) ∧ (softmax [(0 : ℝ)]).sum = 1) ∧
     (sceneMeanScores 3 ([] : List (Frame ℝ))).length = 3 ∧
     ∀ x ∈ sceneMeanScores 3 ([] : List (Frame ℝ)), 0 ≤ x ∧ x ≤ 1) :=
  ⟨⟨by simp, by simp⟩,
   softmax_and_mean_bounds [(0 : ℝ)] (by simp) 3 [] (by simp)⟩
